import Mathlib

/-!
# Offline cache manager of the weather PWA (`public/sw.js`)

A shallow embedding of the service worker's three event handlers:

* `install`  : opens the current cache container and tries to store every static asset,
* `activate` : deletes every cache container whose name differs from `CACHE_NAME`,
* `fetch`    : routes an intercepted request (data API / navigation / static asset).

The browser platform (network, `CacheStorage`, `Cache`) is not part of the repository.  It is
modelled by explicit state (`CacheStorage`, a list of named containers in creation order) and by
an environment `Env` that fixes the outcome of every operation that can fail in the handlers:
a network fetch, a `cache.put`, a `caches.delete`.  Promises are modelled by their settled
value: a rejected `fetch` is `none`, an `undefined` cache lookup is `none`.  Tasks that the
handlers launch together (the asset tasks of install, the deletions of activate) are taken in
list order; the detached cache write of the fetch listener is taken to have settled in the
storage that `handleFetch` returns.

Request identity is the request URL (GET requests, default match options, no `Vary`), so that a
cache key is a `String`.
-/

namespace WeatherPwa

/-! ## Constants of `sw.js` -/

/-- Line 1: `const CACHE_NAME = 'weather-app-v1'`. -/
def CACHE_NAME : String := "weather-app-v1"

/-- Line 2: `const OFFLINE_URL = '/'`. -/
def OFFLINE_URL : String := "/"

/-- Lines 4-9: `const ASSETS_TO_CACHE = [...]`. -/
def ASSETS_TO_CACHE : List String :=
  [OFFLINE_URL, "/manifest.json", "/icons/icon-192.png", "/icons/icon-512.png"]

/-- The literal tested by the fetch listener, line 47. -/
def API_HOST : String := "api.openweathermap.org"

/-! ## Platform data -/

/-- An HTTP response: its status code and its body (`none` is the null body). -/
structure Response where
  status : Nat
  body : Option String
  deriving DecidableEq, Repr

namespace Response

/-- The getter `res.ok`: the status is in the range 200-299. -/
def ok (r : Response) : Bool := decide (200 ≤ r.status) && decide (r.status ≤ 299)

/-- The method `res.clone()`: a copy with the same status and body. -/
def clone (r : Response) : Response := { status := r.status, body := r.body }

/-- The constructor call `new Response(null, { status: 404 })` of line 75. -/
def notFound : Response := { status := 404, body := none }

end Response

/-- An intercepted request: URL, `request.mode` and the `accept` header (`none` when the header
is not set, the `null` of `headers.get`). -/
structure Request where
  url : String
  mode : String
  accept : Option String
  deriving DecidableEq, Repr

/-- A cache container: entries in insertion order, keyed by request URL. -/
abbrev Cache := List (String × Response)

/-- The cache storage of the origin: named containers in creation order. -/
abbrev CacheStorage := List (String × Cache)

/-- The outcome of every fallible platform operation. -/
structure Env where
  /-- The settled `fetch(url)`: `none` when the promise rejects. -/
  fetch : String → Option Response
  /-- Whether `cache.put(url, res)` fulfils, as a function of key and response (the platform
  rejects a response of status 206, for instance). -/
  putOk : String → Response → Bool
  /-- Whether `caches.delete(name)` removes the container. -/
  deleteOk : String → Bool

namespace Cache

/-- The method `cache.match(url)`: the stored response of the first entry under that key. -/
def matchUrl (c : Cache) (url : String) : Option Response :=
  match c with
  | [] => none
  | (k, r) :: rest => if k = url then some r else matchUrl rest url

/-- A successful `cache.put(url, res)`: entries under the key are removed, the new one is
appended. -/
def put (c : Cache) (url : String) (res : Response) : Cache :=
  c.filter (fun e => decide (e.1 ≠ url)) ++ [(url, res)]

/-- The keys of the entries, in order. -/
def urls (c : Cache) : List String := c.map Prod.fst

end Cache

namespace CacheStorage

/-- The method `caches.keys()`: the container names in creation order. -/
def keys (s : CacheStorage) : List String := s.map Prod.fst

/-- The method `caches.has(name)`. -/
def has (s : CacheStorage) (name : String) : Bool := decide (name ∈ keys s)

/-- The storage after `caches.open(name)`: the container is created empty when absent. -/
def openCache (s : CacheStorage) (name : String) : CacheStorage :=
  if has s name then s else s ++ [(name, [])]

/-- The content of the container `name` (empty when there is no such container). -/
def container (s : CacheStorage) (name : String) : Cache :=
  match s with
  | [] => []
  | (n, c) :: rest => if n = name then c else container rest name

/-- Replace the content of the container `name`. -/
def setContainer (s : CacheStorage) (name : String) (c : Cache) : CacheStorage :=
  s.map (fun e => if e.1 = name then (e.1, c) else e)

/-- A successful `caches.delete(name)`. -/
def delete (s : CacheStorage) (name : String) : CacheStorage :=
  s.filter (fun e => decide (e.1 ≠ name))

/-- The method `caches.match(url)`: containers are searched in creation order and the first
matching entry is returned. -/
def matchUrl (s : CacheStorage) (url : String) : Option Response :=
  match s with
  | [] => none
  | (_, c) :: rest =>
    match Cache.matchUrl c url with
    | some r => some r
    | none => matchUrl rest url

/-- Container names are distinct and so are the keys inside each container. -/
def WF (s : CacheStorage) : Prop :=
  (keys s).Nodup ∧ ∀ e ∈ s, (Cache.urls e.2).Nodup

end CacheStorage

/-! ## The install listener (lines 11-31) -/

/-- What the `catch` block of an asset task receives. -/
inductive AssetError where
  | fetchRejected (url : String)
  | badResponse (url : String)
  | putRejected (url : String)
  deriving DecidableEq, Repr

/-- The state of a settled promise. -/
inductive Settled where
  | fulfilled
  | rejected
  deriving DecidableEq, Repr

/-- The combinator `Promise.allSettled`: fulfils whatever the state of its inputs. -/
def promiseAllSettled (_ : List Settled) : Settled := Settled.fulfilled

/-- The `try` block of lines 19-21 for one asset, against the content `c` of the opened
container: `fetch`, the `!res.ok` test (a settled `fetch` is never a null `res`), `cache.put`. -/
def tryCacheAsset (env : Env) (c : Cache) (url : String) : Except AssetError Cache :=
  match env.fetch url with
  | none => Except.error (AssetError.fetchRejected url)
  | some res =>
    if !res.ok then Except.error (AssetError.badResponse url)
    else if env.putOk url res.clone then Except.ok (c.put url res.clone)
    else Except.error (AssetError.putRejected url)

/-- The progress of the asset tasks: container content, `console.warn` log, settled tasks. -/
structure AssetProgress where
  cache : Cache
  warnings : List AssetError
  settled : List Settled
  deriving DecidableEq, Repr

/-- One asset task (the async arrow of lines 17-26): the `try` block, and the `catch` block
that logs the error and lets the task fulfil. -/
def cacheAsset (env : Env) (p : AssetProgress) (url : String) : AssetProgress :=
  match tryCacheAsset env p.cache url with
  | Except.ok c => { p with cache := c, settled := p.settled ++ [Settled.fulfilled] }
  | Except.error err =>
    { p with warnings := p.warnings ++ [err], settled := p.settled ++ [Settled.fulfilled] }

/-- All asset tasks, taken in list order. -/
def cacheAssets (env : Env) (assets : List String) (p : AssetProgress) : AssetProgress :=
  assets.foldl (cacheAsset env) p

/-- What an install run leaves behind. -/
structure InstallOutcome where
  storage : CacheStorage
  warnings : List AssetError
  settled : List Settled
  /-- The state of the promise handed to `event.waitUntil`. -/
  completion : Settled
  deriving DecidableEq, Repr

/-- The install handler for a static asset list: `caches.open(CACHE_NAME)`, the asset tasks,
`Promise.allSettled`. -/
def install (env : Env) (assets : List String) (s : CacheStorage) : InstallOutcome :=
  let s0 := s.openCache CACHE_NAME
  let p := cacheAssets env assets
    { cache := s0.container CACHE_NAME, warnings := [], settled := [] }
  { storage := s0.setContainer CACHE_NAME p.cache
    warnings := p.warnings
    settled := p.settled
    completion := promiseAllSettled p.settled }

/-- The install listener of `sw.js`, on its own asset list. -/
def installEvent (env : Env) (s : CacheStorage) : InstallOutcome :=
  install env ASSETS_TO_CACHE s

/-! ## The activate listener (lines 33-42) -/

/-- Lines 36-38 for one key: `if (key !== CACHE_NAME) return caches.delete(key)`. -/
def activateKey (env : Env) (s : CacheStorage) (key : String) : CacheStorage :=
  if key ≠ CACHE_NAME then
    if env.deleteOk key then s.delete key else s
  else s

/-- The cleanup of the activate handler: `caches.keys()` mapped through `activateKey`. -/
def activate (env : Env) (s : CacheStorage) : CacheStorage :=
  (s.keys).foldl (activateKey env) s

/-! ## The fetch listener (lines 44-77) -/

/-- Whether `sub` occurs in `l` as a contiguous block. -/
def hasInfix (sub : List Char) : List Char → Bool
  | [] => sub.isEmpty
  | c :: cs => sub.isPrefixOf (c :: cs) || hasInfix sub cs

/-- The method `String.prototype.includes`. -/
def includes (s sub : String) : Bool := hasInfix sub.toList s.toList

/-- Line 63: `request.headers.get('accept') || ''`. -/
def acceptHeader (req : Request) : String :=
  match req.accept with
  | none => ""
  | some h => h

/-- Line 47: `request.url.includes('api.openweathermap.org')`. -/
def isApiRequest (req : Request) : Bool := includes req.url API_HOST

/-- Line 64: `request.mode === 'navigate' || acceptHeader.includes('text/html')`. -/
def isNavigation (req : Request) : Bool :=
  decide (req.mode = "navigate") || includes (acceptHeader req) "text/html"

/-- The three branches of the listener. -/
inductive Strategy where
  | api
  | navigation
  | staticAsset
  deriving DecidableEq, Repr

/-- What handling one request leaves behind. -/
structure RouteOutcome where
  strategy : Strategy
  /-- The settled value of the promise given to `event.respondWith`; `none` is `undefined`,
  which the page observes as a failed request. -/
  response : Option Response
  /-- The storage once the detached cache write has settled. -/
  storage : CacheStorage
  /-- The URLs fetched from the network. -/
  fetched : List String
  deriving DecidableEq, Repr

/-- Lines 48-57: network first; on success a clone is stored in the current container
(detached), on failure `caches.match(request)`. -/
def apiStrategy (env : Env) (s : CacheStorage) (req : Request) : RouteOutcome :=
  match env.fetch req.url with
  | some res =>
    let resClone := res.clone
    let s0 := s.openCache CACHE_NAME
    { strategy := Strategy.api
      response := some res
      storage :=
        if env.putOk req.url resClone then
          s0.setContainer CACHE_NAME ((s0.container CACHE_NAME).put req.url resClone)
        else s0
      fetched := [req.url] }
  | none =>
    { strategy := Strategy.api
      response := s.matchUrl req.url
      storage := s
      fetched := [req.url] }

/-- Lines 67-69: `fetch(request).catch(() => caches.match(OFFLINE_URL))`. -/
def navigationStrategy (env : Env) (s : CacheStorage) (req : Request) : RouteOutcome :=
  { strategy := Strategy.navigation
    response :=
      match env.fetch req.url with
      | some res => some res
      | none => s.matchUrl OFFLINE_URL
    storage := s
    fetched := [req.url] }

/-- Lines 74-76: `caches.match(request)`, then `cached || fetch(request).catch(...)`. -/
def staticStrategy (env : Env) (s : CacheStorage) (req : Request) : RouteOutcome :=
  match s.matchUrl req.url with
  | some cached =>
    { strategy := Strategy.staticAsset, response := some cached, storage := s, fetched := [] }
  | none =>
    { strategy := Strategy.staticAsset
      response :=
        match env.fetch req.url with
        | some res => some res
        | none => some Response.notFound
      storage := s
      fetched := [req.url] }

/-- The fetch listener: the two early returns and the default branch. -/
def handleFetch (env : Env) (s : CacheStorage) (req : Request) : RouteOutcome :=
  if isApiRequest req then apiStrategy env s req
  else if isNavigation req then navigationStrategy env s req
  else staticStrategy env s req

/-! ## The stores of an install run -/

/-- The error an asset task catches, if it catches one: the error of its `try` block, which
does not depend on the container content. -/
def assetError (env : Env) (url : String) : Option AssetError :=
  match tryCacheAsset env [] url with
  | Except.ok _ => none
  | Except.error err => some err

/-- The response an asset task stores under `url`, if it stores one: the fetch settles with a
response, `res.ok` holds and the `put` fulfils. -/
def storedResponse (env : Env) (url : String) : Option Response :=
  match env.fetch url with
  | none => none
  | some res => if res.ok && env.putOk url res.clone then some res.clone else none

/-- The container content after the asset tasks, as a fold of the stores that happen. -/
def storeAll (env : Env) (l : List String) (c : Cache) : Cache :=
  l.foldl (fun c u =>
    match storedResponse env u with
    | some r => Cache.put c u r
    | none => c) c

/-- Whether `u` is a listed URL whose task stores a response. -/
def isStored (env : Env) (l : List String) (u : String) : Bool :=
  decide (u ∈ l) && (storedResponse env u).isSome

/-! ## The provider host, in the words of the specification -/

/-- Specification side: what follows the `://` of an absolute URL. -/
def specAfterScheme : List Char → List Char
  | [] => []
  | c :: cs => if "://".toList.isPrefixOf (c :: cs) then cs.drop 2 else specAfterScheme cs

/-- Specification side: what follows the last `@` (the userinfo is dropped). -/
def specAfterUserinfo : List Char → List Char
  | [] => []
  | c :: cs =>
    if '@' ∈ cs then specAfterUserinfo cs
    else if c = '@' then cs
    else c :: cs

/-- Specification side: the host component of an absolute URL
`scheme://[userinfo@]host[:port][/path][?query][#fragment]`. -/
def specUrlHost (url : String) : String :=
  String.mk
    ((specAfterUserinfo
      ((specAfterScheme url.toList).takeWhile
        (fun c => decide (c ≠ '/') && decide (c ≠ '?') && decide (c ≠ '#')))).takeWhile
      (fun c => decide (c ≠ ':')))

/-- Specification side: "the request's URL targets the known weather-data provider host". -/
def specTargetsProviderHost (req : Request) : Prop := specUrlHost req.url = API_HOST

instance (req : Request) : Decidable (specTargetsProviderHost req) := by
  unfold specTargetsProviderHost
  infer_instance

/-! ## Sample environments, requests and storages -/

/-- A network answering every URL with a 206 partial response, which `cache.put` rejects. -/
def envPartial : Env :=
  { fetch := fun _ => some { status := 206, body := some "part" }
    putOk := fun _ r => decide (r.status ≠ 206)
    deleteOk := fun _ => true }

/-- A network on which only `/` is reachable; every store and deletion succeeds. -/
def envRootOnly : Env :=
  { fetch := fun u => if u = "/" then some { status := 200, body := some "home" } else none
    putOk := fun _ _ => true
    deleteOk := fun _ => true }

/-- A storage holding a stale container and a populated current one. -/
def storageStale : CacheStorage :=
  [("weather-app-v0", [("/", { status := 200, body := some "old home" })]),
   (CACHE_NAME, [("/", { status := 200, body := some "home" }),
     ("/manifest.json", { status := 200, body := some "manifest" })])]

/-- A request of the page to the weather provider. -/
def reqWeather : Request :=
  { url := "https://api.openweathermap.org/data/2.5/weather?q=London"
    mode := "cors"
    accept := some "application/json" }

/-- A network answering every URL with status 200; every store and deletion succeeds. -/
def envSunny : Env :=
  { fetch := fun _ => some { status := 200, body := some "sun" }
    putOk := fun _ _ => true
    deleteOk := fun _ => true }

/-- A storage holding the populated current container only. -/
def storageCurrent : CacheStorage :=
  [(CACHE_NAME, [("/", { status := 200, body := some "home" }),
     ("/manifest.json", { status := 200, body := some "manifest" })])]

/-- A network that is down; every store and deletion succeeds. -/
def envOffline : Env :=
  { fetch := fun _ => none
    putOk := fun _ _ => true
    deleteOk := fun _ => true }

/-- A storage where a stale container, created first, and the current container both hold an
entry under the key of `reqWeather`. -/
def storageTwoAnswers : CacheStorage :=
  [("weather-app-v0", [(reqWeather.url, { status := 200, body := some "rain" })]),
   (CACHE_NAME, [(reqWeather.url, { status := 200, body := some "sun" })])]

/-- A navigation of the page to one of its own documents. -/
def reqPage : Request :=
  { url := "https://weather.example/about"
    mode := "navigate"
    accept := some "text/html,application/xhtml+xml" }

/-- A request of the page for an icon. -/
def reqIcon : Request :=
  { url := "/icons/icon-192.png"
    mode := "no-cors"
    accept := some "image/png" }

/-- An image request to another host whose query string mentions the provider host. -/
def reqMention : Request :=
  { url := "https://example.com/badge.png?ref=api.openweathermap.org"
    mode := "no-cors"
    accept := some "image/png" }

/-! ## Lemmas on containers -/

theorem Response.clone_eq (r : Response) : r.clone = r := rfl

theorem Cache.matchUrl_append (a b : Cache) (u : String) :
    Cache.matchUrl (a ++ b) u =
      match Cache.matchUrl a u with
      | some r => some r
      | none => Cache.matchUrl b u := by
  induction a with
  | nil => simp [Cache.matchUrl]
  | cons e a ih =>
    obtain ⟨k, r⟩ := e
    by_cases h : k = u
    · simp [Cache.matchUrl, h]
    · simp [Cache.matchUrl, h, ih]

theorem Cache.matchUrl_filter_ne (c : Cache) (k u : String) :
    Cache.matchUrl (c.filter (fun e => decide (e.1 ≠ k))) u =
      if u = k then none else Cache.matchUrl c u := by
  induction c with
  | nil => simp [Cache.matchUrl]
  | cons e c ih =>
    obtain ⟨k', r⟩ := e
    by_cases h1 : k' = k
    · subst h1
      by_cases h2 : u = k'
      · simp [h2] at ih ⊢
        exact ih
      · have h3 : ¬ k' = u := fun h => h2 h.symm
        simp [h2, h3, Cache.matchUrl] at ih ⊢
        exact ih
    · by_cases h2 : u = k
      · simp [h1, h2, Cache.matchUrl] at ih ⊢
        exact ih
      · by_cases h3 : k' = u
        · simp [h1, h2, h3, Cache.matchUrl]
        · simp [h1, h2, h3, Cache.matchUrl] at ih ⊢
          exact ih

theorem Cache.matchUrl_put (c : Cache) (k u : String) (r : Response) :
    Cache.matchUrl (Cache.put c k r) u = if u = k then some r else Cache.matchUrl c u := by
  unfold Cache.put
  rw [Cache.matchUrl_append, Cache.matchUrl_filter_ne]
  by_cases h : u = k
  · simp [h, Cache.matchUrl]
  · have h2 : ¬ k = u := fun e => h e.symm
    simp [h, h2, Cache.matchUrl]
    cases Cache.matchUrl c u <;> rfl

/-! ## Lemmas on the install handler -/

theorem cacheAsset_cache (env : Env) (p : AssetProgress) (u : String) :
    (cacheAsset env p u).cache =
      match storedResponse env u with
      | some r => p.cache.put u r
      | none => p.cache := by
  unfold cacheAsset tryCacheAsset storedResponse
  cases hf : env.fetch u with
  | none => simp
  | some res =>
    by_cases hok : res.ok = true
    · by_cases hp : env.putOk u res.clone = true
      · simp [hok, hp]
      · simp [hok, hp]
    · simp [hok]

theorem cacheAsset_settled (env : Env) (p : AssetProgress) (u : String) :
    (cacheAsset env p u).settled = p.settled ++ [Settled.fulfilled] := by
  unfold cacheAsset
  cases tryCacheAsset env p.cache u <;> rfl

theorem cacheAssets_cons (env : Env) (u : String) (l : List String) (p : AssetProgress) :
    cacheAssets env (u :: l) p = cacheAssets env l (cacheAsset env p u) := rfl

theorem cacheAssets_settled (env : Env) (l : List String) (p : AssetProgress) :
    (cacheAssets env l p).settled = p.settled ++ List.replicate l.length Settled.fulfilled := by
  induction l generalizing p with
  | nil => simp [cacheAssets]
  | cons u l ih =>
    rw [cacheAssets_cons, ih, cacheAsset_settled]
    simp [List.replicate_succ]

theorem tryCacheAsset_error (env : Env) (c : Cache) (u : String) :
    (match tryCacheAsset env c u with
      | Except.ok _ => none
      | Except.error err => some err) = assetError env u := by
  unfold assetError tryCacheAsset
  cases env.fetch u with
  | none => rfl
  | some res =>
    by_cases hok : res.ok = true
    · by_cases hp : env.putOk u res.clone = true
      · simp [hok, hp]
      · simp [hok, hp]
    · simp [hok]

theorem cacheAsset_warnings (env : Env) (p : AssetProgress) (u : String) :
    (cacheAsset env p u).warnings = p.warnings ++ (assetError env u).toList := by
  rw [← tryCacheAsset_error env p.cache u]
  unfold cacheAsset
  cases tryCacheAsset env p.cache u <;> simp

theorem cacheAssets_warnings (env : Env) (l : List String) (p : AssetProgress) :
    (cacheAssets env l p).warnings = p.warnings ++ l.filterMap (assetError env) := by
  induction l generalizing p with
  | nil => simp [cacheAssets]
  | cons u l ih =>
    rw [cacheAssets_cons, ih, cacheAsset_warnings, List.append_assoc]
    congr 1
    cases h : assetError env u <;> simp [List.filterMap_cons, h]

/-- The lookup in the container after the asset tasks: a listed URL whose task stores a response
maps to it, every other key is as before. -/
theorem matchUrl_cacheAssets (env : Env) (l : List String) (p : AssetProgress) (u : String) :
    Cache.matchUrl (cacheAssets env l p).cache u =
      if u ∈ l then
        match storedResponse env u with
        | some r => some r
        | none => Cache.matchUrl p.cache u
      else Cache.matchUrl p.cache u := by
  induction l generalizing p with
  | nil => simp [cacheAssets]
  | cons v l ih =>
    rw [cacheAssets_cons, ih, cacheAsset_cache]
    by_cases huv : u = v
    · subst huv
      cases hs : storedResponse env u with
      | none => simp
      | some r => simp [Cache.matchUrl_put]
    · cases hs : storedResponse env v with
      | none => simp [huv]
      | some r => simp [huv, Cache.matchUrl_put]

/-! ## Lemmas on the storage -/

theorem CacheStorage.keys_setContainer (s : CacheStorage) (n : String) (c : Cache) :
    CacheStorage.keys (CacheStorage.setContainer s n c) = CacheStorage.keys s := by
  unfold CacheStorage.keys CacheStorage.setContainer
  rw [List.map_map]
  apply List.map_congr_left
  intro e _
  by_cases h : e.1 = n <;> simp [h]

theorem CacheStorage.mem_keys_openCache (s : CacheStorage) (n : String) :
    n ∈ CacheStorage.keys (CacheStorage.openCache s n) := by
  unfold CacheStorage.openCache CacheStorage.has
  by_cases h : n ∈ CacheStorage.keys s
  · simp [h]
  · rw [if_neg (by simpa using h)]
    simp [CacheStorage.keys]

theorem CacheStorage.openCache_of_mem (s : CacheStorage) (n : String)
    (h : n ∈ CacheStorage.keys s) : CacheStorage.openCache s n = s := by
  simp [CacheStorage.openCache, CacheStorage.has, h]

theorem CacheStorage.container_cons (m n : String) (d : Cache) (s : CacheStorage) :
    CacheStorage.container ((m, d) :: s) n = if m = n then d else CacheStorage.container s n :=
  rfl

theorem CacheStorage.setContainer_cons (m n : String) (c d : Cache) (s : CacheStorage) :
    CacheStorage.setContainer ((m, d) :: s) n c
      = (if m = n then (m, c) else (m, d)) :: CacheStorage.setContainer s n c := rfl

theorem CacheStorage.container_setContainer (s : CacheStorage) (n : String) (c : Cache)
    (h : n ∈ CacheStorage.keys s) :
    CacheStorage.container (CacheStorage.setContainer s n c) n = c := by
  induction s with
  | nil => simp [CacheStorage.keys] at h
  | cons e s ih =>
    obtain ⟨m, d⟩ := e
    rw [CacheStorage.setContainer_cons]
    by_cases hm : m = n
    · rw [if_pos hm, CacheStorage.container_cons, if_pos hm]
    · have h2 : n ∈ CacheStorage.keys s := by
        simp only [CacheStorage.keys, List.map_cons, List.mem_cons] at h
        rcases h with h | h
        · exact absurd h.symm hm
        · exact h
      rw [if_neg hm, CacheStorage.container_cons, if_neg hm]
      exact ih h2

theorem CacheStorage.setContainer_setContainer (s : CacheStorage) (n : String) (c d : Cache) :
    CacheStorage.setContainer (CacheStorage.setContainer s n c) n d
      = CacheStorage.setContainer s n d := by
  unfold CacheStorage.setContainer
  rw [List.map_map]
  apply List.map_congr_left
  intro e _
  by_cases h : e.1 = n <;> simp [h]

theorem CacheStorage.container_append_fresh (s : CacheStorage) (n : String) :
    CacheStorage.container (s ++ [(n, [])]) n = CacheStorage.container s n := by
  induction s with
  | nil => simp [CacheStorage.container]
  | cons e s ih =>
    obtain ⟨m, d⟩ := e
    rw [List.cons_append, CacheStorage.container_cons, CacheStorage.container_cons, ih]

theorem CacheStorage.container_openCache (s : CacheStorage) (n : String) :
    CacheStorage.container (CacheStorage.openCache s n) n = CacheStorage.container s n := by
  unfold CacheStorage.openCache
  by_cases h : CacheStorage.has s n = true
  · rw [if_pos h]
  · rw [if_neg h, CacheStorage.container_append_fresh]

/-! ## Lemmas on install runs -/

theorem storeAll_cons (env : Env) (v : String) (l : List String) (c : Cache) :
    storeAll env (v :: l) c =
      storeAll env l (match storedResponse env v with
        | some r => Cache.put c v r
        | none => c) := rfl

theorem cacheAssets_cache (env : Env) (l : List String) (p : AssetProgress) :
    (cacheAssets env l p).cache = storeAll env l p.cache := by
  induction l generalizing p with
  | nil => rfl
  | cons v l ih => rw [cacheAssets_cons, ih, cacheAsset_cache, storeAll_cons]

theorem storeAll_eq (env : Env) (l : List String) (c : Cache) :
    storeAll env l c = c.filter (fun e => !isStored env l e.1) ++ storeAll env l [] := by
  induction l generalizing c with
  | nil => simp [storeAll, isStored]
  | cons v l ih =>
    rw [storeAll_cons, storeAll_cons]
    cases hs : storedResponse env v with
    | none =>
      simp only
      rw [ih c]
      congr 1
      apply List.filter_congr
      intro e _
      by_cases hev : e.1 = v
      · simp [isStored, hev, hs]
      · simp [isStored, hev]
    | some r =>
      simp only
      rw [ih (Cache.put c v r), ih (Cache.put [] v r)]
      unfold Cache.put
      rw [List.filter_append, List.filter_filter, List.append_assoc]
      congr 1
      · apply List.filter_congr
        intro e _
        by_cases hev : e.1 = v
        · simp [isStored, hev, hs]
        · simp [isStored, hev]

theorem mem_storeAll (env : Env) (l : List String) (c : Cache) (e : String × Response)
    (h : e ∈ storeAll env l c) : e ∈ c ∨ isStored env l e.1 = true := by
  induction l generalizing c with
  | nil => exact Or.inl h
  | cons v l ih =>
    rw [storeAll_cons] at h
    cases hs : storedResponse env v with
    | none =>
      rw [hs] at h
      rcases ih c h with h1 | h1
      · exact Or.inl h1
      · right
        simp only [isStored, Bool.and_eq_true, decide_eq_true_eq] at h1 ⊢
        exact ⟨List.mem_cons_of_mem _ h1.1, h1.2⟩
    | some r =>
      rw [hs] at h
      rcases ih _ h with h1 | h1
      · unfold Cache.put at h1
        rw [List.mem_append] at h1
        rcases h1 with h2 | h2
        · exact Or.inl (List.mem_filter.mp h2).1
        · right
          have h3 : e = (v, r) := by simpa using h2
          subst h3
          simp [isStored, hs]
      · right
        simp only [isStored, Bool.and_eq_true, decide_eq_true_eq] at h1 ⊢
        exact ⟨List.mem_cons_of_mem _ h1.1, h1.2⟩

theorem storeAll_idem (env : Env) (l : List String) (c : Cache) :
    storeAll env l (storeAll env l c) = storeAll env l c := by
  rw [storeAll_eq env l (storeAll env l c)]
  conv_rhs => rw [storeAll_eq env l c]
  congr 1
  conv_lhs => rw [storeAll_eq env l c]
  rw [List.filter_append, List.filter_filter]
  have h1 : (storeAll env l []).filter (fun e => !isStored env l e.1) = [] := by
    rw [List.filter_eq_nil_iff]
    intro e he
    rcases mem_storeAll env l [] e he with h | h
    · simp at h
    · simp [h]
  rw [h1, List.append_nil]
  apply List.filter_congr
  intro e _
  simp

theorem Cache.urls_put_nodup (c : Cache) (k : String) (r : Response)
    (h : (Cache.urls c).Nodup) : (Cache.urls (Cache.put c k r)).Nodup := by
  unfold Cache.urls Cache.put at *
  rw [List.map_append, List.nodup_append]
  refine ⟨(List.filter_sublist c).map Prod.fst |>.nodup h, by simp, ?_⟩
  intro a ha hb
  simp only [List.map_cons, List.map_nil, List.mem_singleton] at hb
  subst hb
  rw [List.mem_map] at ha
  obtain ⟨e, he, hea⟩ := ha
  have := (List.mem_filter.mp he).2
  simp [hea] at this

theorem storeAll_nodup (env : Env) (l : List String) (c : Cache)
    (h : (Cache.urls c).Nodup) : (Cache.urls (storeAll env l c)).Nodup := by
  induction l generalizing c with
  | nil => exact h
  | cons v l ih =>
    rw [storeAll_cons]
    cases hs : storedResponse env v with
    | none => exact ih c h
    | some r => exact ih _ (Cache.urls_put_nodup c v r h)

theorem install_container (env : Env) (assets : List String) (s : CacheStorage) :
    CacheStorage.container (install env assets s).storage CACHE_NAME =
      (cacheAssets env assets
        { cache := CacheStorage.container s CACHE_NAME, warnings := [], settled := [] }).cache := by
  unfold install
  simp only
  rw [CacheStorage.container_setContainer _ _ _ (CacheStorage.mem_keys_openCache s CACHE_NAME),
    CacheStorage.container_openCache]

theorem install_lookup (env : Env) (assets : List String) (s : CacheStorage) (u : String) :
    Cache.matchUrl (CacheStorage.container (install env assets s).storage CACHE_NAME) u =
      if u ∈ assets then
        match storedResponse env u with
        | some r => some r
        | none => Cache.matchUrl (CacheStorage.container s CACHE_NAME) u
      else Cache.matchUrl (CacheStorage.container s CACHE_NAME) u := by
  rw [install_container, matchUrl_cacheAssets]

theorem install_storage (env : Env) (assets : List String) (s : CacheStorage) :
    (install env assets s).storage =
      CacheStorage.setContainer (CacheStorage.openCache s CACHE_NAME) CACHE_NAME
        (storeAll env assets (CacheStorage.container s CACHE_NAME)) := by
  unfold install
  simp only
  rw [cacheAssets_cache, CacheStorage.container_openCache]

theorem install_install_storage (env : Env) (assets : List String) (s : CacheStorage) :
    (install env assets (install env assets s).storage).storage
      = (install env assets s).storage := by
  have hmem : CACHE_NAME ∈ CacheStorage.keys (install env assets s).storage := by
    rw [install_storage, CacheStorage.keys_setContainer]
    exact CacheStorage.mem_keys_openCache s CACHE_NAME
  rw [install_storage env assets (install env assets s).storage,
    CacheStorage.openCache_of_mem _ _ hmem]
  rw [install_storage env assets s]
  rw [CacheStorage.container_setContainer _ _ _ (CacheStorage.mem_keys_openCache s CACHE_NAME),
    storeAll_idem, CacheStorage.setContainer_setContainer]

theorem CacheStorage.WF_container (s : CacheStorage) (n : String) (h : CacheStorage.WF s) :
    (Cache.urls (CacheStorage.container s n)).Nodup := by
  induction s with
  | nil => simp [CacheStorage.container, Cache.urls]
  | cons e s ih =>
    obtain ⟨m, d⟩ := e
    rw [CacheStorage.container_cons]
    by_cases hm : m = n
    · rw [if_pos hm]
      exact h.2 (m, d) (List.mem_cons_self _ _)
    · rw [if_neg hm]
      apply ih
      refine ⟨?_, fun e he => h.2 e (List.mem_cons_of_mem _ he)⟩
      have := h.1
      simp only [CacheStorage.keys, List.map_cons] at this
      exact (List.nodup_cons.mp this).2

theorem CacheStorage.keys_openCache_nodup (s : CacheStorage) (n : String)
    (h : (CacheStorage.keys s).Nodup) :
    (CacheStorage.keys (CacheStorage.openCache s n)).Nodup := by
  unfold CacheStorage.openCache CacheStorage.has
  by_cases hn : n ∈ CacheStorage.keys s
  · rw [if_pos (by simpa using hn)]
    exact h
  · rw [if_neg (by simpa using hn)]
    unfold CacheStorage.keys at *
    rw [List.map_append, List.nodup_append]
    refine ⟨h, by simp, ?_⟩
    intro a ha hb
    simp only [List.map_cons, List.map_nil, List.mem_singleton] at hb
    subst hb
    exact hn ha

theorem CacheStorage.WF_openCache (s : CacheStorage) (n : String) (h : CacheStorage.WF s) :
    CacheStorage.WF (CacheStorage.openCache s n) := by
  refine ⟨CacheStorage.keys_openCache_nodup s n h.1, ?_⟩
  unfold CacheStorage.openCache CacheStorage.has
  by_cases hn : n ∈ CacheStorage.keys s
  · rw [if_pos (by simpa using hn)]
    exact h.2
  · rw [if_neg (by simpa using hn)]
    intro e he
    rw [List.mem_append] at he
    rcases he with he | he
    · exact h.2 e he
    · have : e = (n, []) := by simpa using he
      subst this
      simp [Cache.urls]

theorem CacheStorage.WF_setContainer (s : CacheStorage) (n : String) (c : Cache)
    (h : CacheStorage.WF s) (hc : (Cache.urls c).Nodup) :
    CacheStorage.WF (CacheStorage.setContainer s n c) := by
  constructor
  · rw [CacheStorage.keys_setContainer]
    exact h.1
  · intro e he
    unfold CacheStorage.setContainer at he
    rw [List.mem_map] at he
    obtain ⟨e0, he0, hee⟩ := he
    by_cases hn : e0.1 = n
    · rw [if_pos hn] at hee
      subst hee
      exact hc
    · rw [if_neg hn] at hee
      subst hee
      exact h.2 _ he0

theorem install_WF (env : Env) (assets : List String) (s : CacheStorage)
    (h : CacheStorage.WF s) : CacheStorage.WF (install env assets s).storage := by
  rw [install_storage]
  exact CacheStorage.WF_setContainer _ _ _ (CacheStorage.WF_openCache s _ h)
    (storeAll_nodup env assets _ (CacheStorage.WF_container s _ h))

/-! ## Lemmas on the activate handler -/

theorem activate_foldl (env : Env) (ks : List String) (acc : CacheStorage) :
    ks.foldl (activateKey env) acc =
      acc.filter (fun e =>
        !(decide (e.1 ∈ ks) && decide (e.1 ≠ CACHE_NAME) && env.deleteOk e.1)) := by
  induction ks generalizing acc with
  | nil => simp
  | cons k ks ih =>
    rw [List.foldl_cons, ih]
    unfold activateKey
    by_cases h1 : k ≠ CACHE_NAME
    · by_cases h2 : env.deleteOk k = true
      · rw [if_pos h1, if_pos h2]
        unfold CacheStorage.delete
        rw [List.filter_filter]
        apply List.filter_congr
        intro e _
        by_cases hek : e.1 = k
        · simp [hek, h1, h2]
        · simp [hek]
      · rw [if_pos h1, if_neg h2]
        apply List.filter_congr
        intro e _
        by_cases hek : e.1 = k
        · simp [hek, h2]
        · simp [hek]
    · rw [if_neg h1]
      apply List.filter_congr
      intro e _
      by_cases hek : e.1 = k
      · simp [hek, h1]
      · simp [hek]

theorem activate_eq_filter (env : Env) (s : CacheStorage) :
    activate env s =
      s.filter (fun e => decide (e.1 = CACHE_NAME) || !env.deleteOk e.1) := by
  unfold activate
  rw [activate_foldl]
  apply List.filter_congr
  intro e he
  have hmem : e.1 ∈ CacheStorage.keys s := List.mem_map_of_mem Prod.fst he
  by_cases h : e.1 = CACHE_NAME
  · simp [h]
  · simp [h, hmem]

theorem activate_eq_filter_current (env : Env) (s : CacheStorage)
    (hdel : ∀ key ∈ CacheStorage.keys s, key ≠ CACHE_NAME → env.deleteOk key = true) :
    activate env s = s.filter (fun e => decide (e.1 = CACHE_NAME)) := by
  rw [activate_eq_filter]
  apply List.filter_congr
  intro e he
  have hmem : e.1 ∈ CacheStorage.keys s := List.mem_map_of_mem Prod.fst he
  by_cases h : e.1 = CACHE_NAME
  · simp [h]
  · simp [h, hdel e.1 hmem h]

theorem CacheStorage.keys_filter_current (s : CacheStorage) :
    CacheStorage.keys (s.filter (fun e => decide (e.1 = CACHE_NAME)))
      = (CacheStorage.keys s).filter (fun n => decide (n = CACHE_NAME)) := by
  unfold CacheStorage.keys
  rw [List.filter_map]
  rfl

theorem mem_keys_activate (env : Env) (s : CacheStorage)
    (hdel : ∀ key ∈ CacheStorage.keys s, key ≠ CACHE_NAME → env.deleteOk key = true)
    (n : String) :
    n ∈ CacheStorage.keys (activate env s) ↔
      (n = CACHE_NAME ∧ CACHE_NAME ∈ CacheStorage.keys s) := by
  rw [activate_eq_filter_current env s hdel, CacheStorage.keys_filter_current, List.mem_filter]
  constructor
  · rintro ⟨h1, h2⟩
    have h3 : n = CACHE_NAME := by simpa using h2
    exact ⟨h3, h3 ▸ h1⟩
  · rintro ⟨h1, h2⟩
    exact ⟨h1 ▸ h2, by simpa using h1⟩

theorem keys_activate_of_mem (env : Env) (s : CacheStorage)
    (hdel : ∀ key ∈ CacheStorage.keys s, key ≠ CACHE_NAME → env.deleteOk key = true)
    (hnd : (CacheStorage.keys s).Nodup) (hmem : CACHE_NAME ∈ CacheStorage.keys s) :
    CacheStorage.keys (activate env s) = [CACHE_NAME] := by
  rw [activate_eq_filter_current env s hdel, CacheStorage.keys_filter_current,
    List.filter_eq, List.count_eq_one_of_mem hnd hmem]
  rfl

/-! ## Lemmas on URL classification -/

theorem specAfterScheme_suffix (l : List Char) : specAfterScheme l <:+ l := by
  induction l with
  | nil => exact List.suffix_refl _
  | cons c cs ih =>
    unfold specAfterScheme
    split
    · exact (List.drop_suffix 2 cs).trans (List.suffix_cons c cs)
    · exact ih.trans (List.suffix_cons c cs)

theorem specAfterUserinfo_suffix (l : List Char) : specAfterUserinfo l <:+ l := by
  induction l with
  | nil => exact List.suffix_refl _
  | cons c cs ih =>
    unfold specAfterUserinfo
    split
    · exact ih.trans (List.suffix_cons c cs)
    · split
      · exact List.suffix_cons c cs
      · exact List.suffix_refl _

theorem specUrlHost_infix (url : String) : (specUrlHost url).toList <:+: url.toList := by
  unfold specUrlHost
  simp only [String.toList]
  exact ((List.takeWhile_prefix _).isInfix.trans
    ((specAfterUserinfo_suffix _).isInfix.trans
      ((List.takeWhile_prefix _).isInfix.trans (specAfterScheme_suffix _).isInfix)))

theorem hasInfix_iff (sub l : List Char) : hasInfix sub l = true ↔ sub <:+: l := by
  induction l with
  | nil =>
    unfold hasInfix
    cases sub <;> simp
  | cons c cs ih =>
    unfold hasInfix
    rw [Bool.or_eq_true, ih, List.isPrefixOf_iff_prefix, List.infix_cons_iff]

theorem isApiRequest_of_specTargets (req : Request) (h : specTargetsProviderHost req) :
    isApiRequest req = true := by
  unfold isApiRequest includes
  rw [hasInfix_iff]
  have := specUrlHost_infix req.url
  rw [h] at this
  exact this

/-! ## Lemmas on the fetch handler -/

theorem handleFetch_api (env : Env) (s : CacheStorage) (req : Request)
    (h : isApiRequest req = true) : handleFetch env s req = apiStrategy env s req := by
  unfold handleFetch
  rw [if_pos h]

theorem handleFetch_navigation (env : Env) (s : CacheStorage) (req : Request)
    (h : isApiRequest req = false) (hn : isNavigation req = true) :
    handleFetch env s req = navigationStrategy env s req := by
  unfold handleFetch
  rw [if_neg (by simp [h]), if_pos hn]

theorem handleFetch_static (env : Env) (s : CacheStorage) (req : Request)
    (h : isApiRequest req = false) (hn : isNavigation req = false) :
    handleFetch env s req = staticStrategy env s req := by
  unfold handleFetch
  rw [if_neg (by simp [h]), if_neg (by simp [hn])]

theorem apiStrategy_strategy (env : Env) (s : CacheStorage) (req : Request) :
    (apiStrategy env s req).strategy = Strategy.api := by
  unfold apiStrategy
  cases env.fetch req.url <;> rfl

theorem staticStrategy_strategy (env : Env) (s : CacheStorage) (req : Request) :
    (staticStrategy env s req).strategy = Strategy.staticAsset := by
  unfold staticStrategy
  cases s.matchUrl req.url <;> rfl

/-- When only the container `n` holds an entry under `u`, `caches.match` finds that entry. -/
theorem CacheStorage.matchUrl_of_only (s : CacheStorage) (n u : String) (r : Response)
    (hcur : Cache.matchUrl (CacheStorage.container s n) u = some r)
    (hothers : ∀ e ∈ s, e.1 ≠ n → Cache.matchUrl e.2 u = none) :
    CacheStorage.matchUrl s u = some r := by
  induction s with
  | nil => simp [CacheStorage.container, Cache.matchUrl] at hcur
  | cons e s ih =>
    obtain ⟨m, d⟩ := e
    rw [CacheStorage.container_cons] at hcur
    unfold CacheStorage.matchUrl
    by_cases hm : m = n
    · rw [if_pos hm] at hcur
      rw [hcur]
    · rw [if_neg hm] at hcur
      rw [hothers (m, d) (List.mem_cons_self _ _) hm]
      exact ih hcur (fun e he => hothers e (List.mem_cons_of_mem _ he))

/-! ## The claims -/

/-- C2, as stated, fails: on `envPartial` the fetch of `/` succeeds with the successful status
206, the store is rejected and caught, and the container holds no entry under `/`. -/
theorem install_population_counterexample :
    CacheStorage.container [] CACHE_NAME = [] ∧
    ¬ (∀ u ∈ ["/"], ∀ r, envPartial.fetch u = some r → r.ok = true →
        Cache.matchUrl
          (CacheStorage.container (install envPartial ["/"] []).storage CACHE_NAME) u
          = some r) := by
  refine ⟨rfl, ?_⟩
  intro h
  have h1 := h "/" (by simp) { status := 206, body := some "part" } rfl (by decide)
  revert h1
  decide

/-- C2 (amended): when install runs against a current container that is absent or empty, then
for every listed URL `u` the current container afterwards holds the fetched response under `u`
if the fetch succeeded with a successful status and the store was accepted, and holds no entry
under `u` if the store was rejected, the fetch failed, or the status was not successful. -/
theorem install_population (env : Env) (assets : List String) (s : CacheStorage)
    (hempty : CacheStorage.container s CACHE_NAME = []) (u : String) (hu : u ∈ assets) :
    (∀ r, env.fetch u = some r → r.ok = true → env.putOk u r.clone = true →
      Cache.matchUrl (CacheStorage.container (install env assets s).storage CACHE_NAME) u
        = some r) ∧
    (∀ r, env.fetch u = some r → r.ok = true → env.putOk u r.clone = false →
      Cache.matchUrl (CacheStorage.container (install env assets s).storage CACHE_NAME) u
        = none) ∧
    (env.fetch u = none →
      Cache.matchUrl (CacheStorage.container (install env assets s).storage CACHE_NAME) u
        = none) ∧
    (∀ r, env.fetch u = some r → r.ok = false →
      Cache.matchUrl (CacheStorage.container (install env assets s).storage CACHE_NAME) u
        = none) := by
  rw [install_lookup, if_pos hu, hempty]
  refine ⟨?_, ?_, ?_, ?_⟩
  · intro r hf hok hp
    rw [Response.clone_eq] at hp
    simp [storedResponse, hf, hok, hp, Response.clone_eq]
  · intro r hf hok hp
    rw [Response.clone_eq] at hp
    simp [storedResponse, hf, hok, hp, Response.clone_eq, Cache.matchUrl]
  · intro hf
    simp [storedResponse, hf, Cache.matchUrl]
  · intro r hf hok
    simp [storedResponse, hf, hok, Cache.matchUrl]

/-- Witness for C2: the list `["/", "/manifest.json"]` with only `/`
reachable, on an empty storage. -/
theorem install_population_witness :
    Cache.matchUrl
        (CacheStorage.container
          (install envRootOnly ["/", "/manifest.json"] []).storage CACHE_NAME) "/"
      = some { status := 200, body := some "home" } ∧
    Cache.matchUrl
        (CacheStorage.container
          (install envRootOnly ["/", "/manifest.json"] []).storage CACHE_NAME) "/manifest.json"
      = none :=
  ⟨(install_population envRootOnly ["/", "/manifest.json"] [] rfl "/" (by decide)).1
      { status := 200, body := some "home" } rfl rfl rfl,
   (install_population envRootOnly ["/", "/manifest.json"] [] rfl "/manifest.json"
      (by decide)).2.2.1 rfl⟩

/-- The scenario of the specification: asset list `["/", "/manifest.json"]`, only `/`
reachable; the storage ends with the current container holding the single entry `/`, one
warning is logged and install completes. -/
theorem install_scenario_root_only :
    install envRootOnly ["/", "/manifest.json"] [] =
      { storage := [(CACHE_NAME, [("/", { status := 200, body := some "home" })])]
        warnings := [AssetError.fetchRejected "/manifest.json"]
        settled := [Settled.fulfilled, Settled.fulfilled]
        completion := Settled.fulfilled } := by
  decide

/-- C9: for every asset list, storage and outcome of the fetches and stores, the promise
handed to `waitUntil` fulfils, every asset task fulfils (one per listed asset, none rejected),
and the failures are only logged: the warnings are the errors of the failed assets, in
order. -/
theorem install_reports_success (env : Env) (assets : List String) (s : CacheStorage) :
    (install env assets s).completion = Settled.fulfilled ∧
    (install env assets s).settled = List.replicate assets.length Settled.fulfilled ∧
    (install env assets s).warnings = assets.filterMap (assetError env) := by
  refine ⟨rfl, ?_, ?_⟩
  · unfold install
    simp only
    rw [cacheAssets_settled]
    rfl
  · unfold install
    simp only
    rw [cacheAssets_warnings]
    rfl

/-- C10: for every asset list, every storage and every environment (the same on both runs),
a second install run leaves the storage, hence the current container, exactly as the first run
left it; both runs complete; and distinct names and keys stay distinct, so no key has two
entries. -/
theorem install_idempotent (env : Env) (assets : List String) (s : CacheStorage) :
    (install env assets (install env assets s).storage).storage
      = (install env assets s).storage ∧
    (install env assets s).completion = Settled.fulfilled ∧
    (install env assets (install env assets s).storage).completion = Settled.fulfilled ∧
    (CacheStorage.WF s →
      CacheStorage.WF (install env assets (install env assets s).storage).storage) := by
  refine ⟨install_install_storage env assets s, rfl, rfl, fun h => ?_⟩
  rw [install_install_storage]
  exact install_WF env assets s h

/-- Witness for C10: the asset list of `sw.js` on a storage with a stale
container, only `/` reachable. -/
theorem install_idempotent_witness :
    CacheStorage.WF storageStale ∧
    CacheStorage.WF
      (install envRootOnly ASSETS_TO_CACHE
        (install envRootOnly ASSETS_TO_CACHE storageStale).storage).storage :=
  have h : CacheStorage.WF storageStale := by
    constructor
    · decide
    · intro e he
      simp only [storageStale, List.mem_cons, List.mem_singleton, List.not_mem_nil,
        or_false] at he
      rcases he with he | he <;> subst he <;> decide
  ⟨h, (install_idempotent envRootOnly ASSETS_TO_CACHE storageStale).2.2.2 h⟩

/-- C1, as stated, fails: on a storage without the current container (here one stale
container only), with every deletion succeeding, activate leaves no container at all, so the
set of names is empty and not `{CACHE_NAME}`. -/
theorem activate_counterexample :
    (∀ key ∈ CacheStorage.keys [("weather-app-v0", ([] : Cache))],
      key ≠ CACHE_NAME → envRootOnly.deleteOk key = true) ∧
    CacheStorage.keys (activate envRootOnly [("weather-app-v0", [])]) = [] ∧
    CACHE_NAME ∉ CacheStorage.keys (activate envRootOnly [("weather-app-v0", [])]) := by
  refine ⟨fun _ _ _ => rfl, by decide, by decide⟩

/-- C1 (amended): once the cleanup has completed with every requested deletion succeeding,
every container with a different name is gone and the current one exists exactly when it
existed before activation; so a storage with distinct names that held the current container
ends with the names list `[CACHE_NAME]`. -/
theorem activate_keeps_only_current (env : Env) (s : CacheStorage)
    (hdel : ∀ key ∈ CacheStorage.keys s, key ≠ CACHE_NAME → env.deleteOk key = true) :
    (∀ n, n ∈ CacheStorage.keys (activate env s) ↔
      (n = CACHE_NAME ∧ CACHE_NAME ∈ CacheStorage.keys s)) ∧
    ((CacheStorage.keys s).Nodup → CACHE_NAME ∈ CacheStorage.keys s →
      CacheStorage.keys (activate env s) = [CACHE_NAME]) :=
  ⟨mem_keys_activate env s hdel, keys_activate_of_mem env s hdel⟩

/-- Witness for C1: a stale and a current container. -/
theorem activate_keeps_only_current_witness :
    CacheStorage.keys (activate envRootOnly storageStale) = [CACHE_NAME] :=
  (activate_keeps_only_current envRootOnly storageStale (fun _ _ _ => rfl)).2
    (by decide) (by decide)

/-- Install followed by activate: whatever the storage held (names distinct), once install
has run and the cleanup has deleted what it asked for, exactly the current container is
left. -/
theorem activate_after_install (env : Env) (assets : List String) (s : CacheStorage)
    (hnd : (CacheStorage.keys s).Nodup)
    (hdel : ∀ key ∈ CacheStorage.keys (install env assets s).storage,
      key ≠ CACHE_NAME → env.deleteOk key = true) :
    CacheStorage.keys (activate env (install env assets s).storage) = [CACHE_NAME] := by
  have hk : CacheStorage.keys (install env assets s).storage
      = CacheStorage.keys (CacheStorage.openCache s CACHE_NAME) := by
    rw [install_storage, CacheStorage.keys_setContainer]
  refine keys_activate_of_mem env _ hdel ?_ ?_
  · rw [hk]
    exact CacheStorage.keys_openCache_nodup s CACHE_NAME hnd
  · rw [hk]
    exact CacheStorage.mem_keys_openCache s CACHE_NAME

/-- C3, as stated, fails: on `envPartial` the fetch of the data-API request yields a 206
response, which is returned to the page, but the detached store is rejected and the current
container holds no entry under the request key afterwards. -/
theorem api_success_counterexample :
    isApiRequest reqWeather = true ∧
    envPartial.fetch reqWeather.url = some { status := 206, body := some "part" } ∧
    (handleFetch envPartial [] reqWeather).response
      = some { status := 206, body := some "part" } ∧
    Cache.matchUrl
        (CacheStorage.container (handleFetch envPartial [] reqWeather).storage CACHE_NAME)
        reqWeather.url
      ≠ some (Response.clone { status := 206, body := some "part" }) := by
  decide

/-- C3 (amended): for a data-API request whose network fetch yields a response, that response
is returned to the page whatever happens to the store, and when the detached store is accepted
the current container afterwards maps the request key to a clone of it. -/
theorem api_success (env : Env) (s : CacheStorage) (req : Request) (res : Response)
    (hapi : isApiRequest req = true) (hfetch : env.fetch req.url = some res) :
    (handleFetch env s req).response = some res ∧
    (env.putOk req.url res.clone = true →
      Cache.matchUrl (CacheStorage.container (handleFetch env s req).storage CACHE_NAME) req.url
        = some res.clone) := by
  rw [handleFetch_api env s req hapi]
  unfold apiStrategy
  rw [hfetch]
  refine ⟨rfl, fun hp => ?_⟩
  simp only
  rw [if_pos hp,
    CacheStorage.container_setContainer _ _ _ (CacheStorage.mem_keys_openCache s CACHE_NAME),
    Cache.matchUrl_put, if_pos rfl]

/-- Witness for C3: the weather request answered with status 200, on a storage
with a stale and a current container. -/
theorem api_success_witness :
    (handleFetch envSunny storageStale reqWeather).response
      = some { status := 200, body := some "sun" } ∧
    Cache.matchUrl
        (CacheStorage.container
          (handleFetch envSunny storageStale reqWeather).storage CACHE_NAME)
        reqWeather.url
      = some (Response.clone { status := 200, body := some "sun" }) :=
  have h := api_success envSunny storageStale reqWeather
    { status := 200, body := some "sun" } (by decide) rfl
  ⟨h.1, h.2 rfl⟩

/-- C4, as stated, fails: the network is down and the current container holds "sun" under
the request key, but a stale container created earlier holds "rain" under the same key, and
`caches.match` returns "rain". -/
theorem api_fallback_counterexample :
    isApiRequest reqWeather = true ∧
    envOffline.fetch reqWeather.url = none ∧
    Cache.matchUrl (CacheStorage.container storageTwoAnswers CACHE_NAME) reqWeather.url
      = some { status := 200, body := some "sun" } ∧
    (handleFetch envOffline storageTwoAnswers reqWeather).response
      = some { status := 200, body := some "rain" } ∧
    (handleFetch envOffline storageTwoAnswers reqWeather).response
      ≠ Cache.matchUrl (CacheStorage.container storageTwoAnswers CACHE_NAME)
          reqWeather.url := by
  decide

/-- C4 (amended): for a data-API request whose network fetch fails, the response returned is
the first entry stored under the request key over all containers in creation order; it is the
entry of the current container whenever no other container holds an entry under that key. -/
theorem api_fallback (env : Env) (s : CacheStorage) (req : Request)
    (hapi : isApiRequest req = true) (hfetch : env.fetch req.url = none) :
    (handleFetch env s req).response = CacheStorage.matchUrl s req.url ∧
    (∀ r, Cache.matchUrl (CacheStorage.container s CACHE_NAME) req.url = some r →
      (∀ e ∈ s, e.1 ≠ CACHE_NAME → Cache.matchUrl e.2 req.url = none) →
      (handleFetch env s req).response = some r) := by
  rw [handleFetch_api env s req hapi]
  unfold apiStrategy
  rw [hfetch]
  refine ⟨rfl, fun r hcur hothers => ?_⟩
  exact CacheStorage.matchUrl_of_only s CACHE_NAME req.url r hcur hothers

/-- Witness for C4: the network is down and only the current container holds an
entry under the request key. -/
theorem api_fallback_witness :
    (handleFetch envOffline
        [("weather-app-v0", []),
         (CACHE_NAME, [(reqWeather.url, { status := 200, body := some "sun" })])]
        reqWeather).response
      = some { status := 200, body := some "sun" } :=
  (api_fallback envOffline
    [("weather-app-v0", []),
     (CACHE_NAME, [(reqWeather.url, { status := 200, body := some "sun" })])]
    reqWeather (by decide) rfl).2 { status := 200, body := some "sun" } (by decide)
    (by
      intro e he
      simp only [List.mem_cons, List.mem_singleton, List.not_mem_nil, or_false] at he
      rcases he with he | he <;> subst he <;> decide)

/-- C5: for a request that is a navigation and not a data-API request, a failed network fetch
makes the response the result of the cache lookup under the offline root URL, and a successful
fetch makes it the network response. -/
theorem navigation_fallback (env : Env) (s : CacheStorage) (req : Request)
    (hapi : isApiRequest req = false) (hnav : isNavigation req = true) :
    (env.fetch req.url = none →
      (handleFetch env s req).response = CacheStorage.matchUrl s OFFLINE_URL) ∧
    (∀ res, env.fetch req.url = some res → (handleFetch env s req).response = some res) := by
  rw [handleFetch_navigation env s req hapi hnav]
  unfold navigationStrategy
  constructor
  · intro hf
    simp only [hf]
  · intro res hf
    simp only [hf]

/-- Witness for C5: the network is down and the current container holds the root
page. -/
theorem navigation_fallback_witness :
    (handleFetch envOffline storageCurrent reqPage).response
      = some { status := 200, body := some "home" } :=
  (navigation_fallback envOffline storageCurrent reqPage (by decide) (by decide)).1 rfl

/-- C6: for a request that is neither a data-API request nor a navigation: a cached entry is
returned without any network fetch; with no entry and a failed fetch the response has status
404 and a null body; with no entry and a successful fetch the network response is returned. -/
theorem static_cache_first (env : Env) (s : CacheStorage) (req : Request)
    (hapi : isApiRequest req = false) (hnav : isNavigation req = false) :
    (∀ cached, CacheStorage.matchUrl s req.url = some cached →
      (handleFetch env s req).response = some cached ∧ (handleFetch env s req).fetched = []) ∧
    (CacheStorage.matchUrl s req.url = none → env.fetch req.url = none →
      ∃ r, (handleFetch env s req).response = some r ∧ r.status = 404 ∧ r.body = none) ∧
    (∀ res, CacheStorage.matchUrl s req.url = none → env.fetch req.url = some res →
      (handleFetch env s req).response = some res) := by
  rw [handleFetch_static env s req hapi hnav]
  unfold staticStrategy
  refine ⟨?_, ?_, ?_⟩
  · intro cached hc
    rw [hc]
    exact ⟨rfl, rfl⟩
  · intro hc hf
    rw [hc]
    simp only [hf]
    exact ⟨Response.notFound, rfl, rfl, rfl⟩
  · intro res hc hf
    rw [hc]
    simp only [hf]

/-- Witness for C6: an icon request with the network down and nothing
cached gets the 404 response. -/
theorem static_cache_first_witness :
    ∃ r, (handleFetch envOffline storageStale reqIcon).response = some r ∧
      r.status = 404 ∧ r.body = none :=
  (static_cache_first envOffline storageStale reqIcon (by decide) (by decide)).2.1
    (by decide) rfl

/-- C7, as stated, fails: `reqMention` targets the host `example.com`, not the provider host,
and is not a navigation, yet the listener applies the data-API strategy to it, because its URL
contains the provider host in the query string. -/
theorem classification_counterexample :
    specUrlHost reqMention.url = "example.com" ∧
    ¬ specTargetsProviderHost reqMention ∧
    isNavigation reqMention = false ∧
    (handleFetch envOffline [] reqMention).strategy = Strategy.api ∧
    (handleFetch envOffline [] reqMention).strategy ≠ Strategy.staticAsset := by
  decide

/-- C7 (amended): every request gets exactly one strategy, in fixed priority order: the
data-API strategy exactly when the URL contains `api.openweathermap.org` (so in particular
whenever the URL targets that host); otherwise the navigation strategy exactly when the mode is
`navigate` or the Accept header contains `text/html`; otherwise the static-asset strategy.
A navigation whose URL contains the provider host gets the data-API strategy, whose fallback
looks up the request key, which is not the offline root URL. -/
theorem fetch_classification (env : Env) (s : CacheStorage) (req : Request) :
    ((handleFetch env s req).strategy = Strategy.api ↔ includes req.url API_HOST = true) ∧
    ((handleFetch env s req).strategy = Strategy.navigation ↔
      (includes req.url API_HOST = false ∧
        (req.mode = "navigate" ∨ includes (acceptHeader req) "text/html" = true))) ∧
    ((handleFetch env s req).strategy = Strategy.staticAsset ↔
      (includes req.url API_HOST = false ∧
        ¬ (req.mode = "navigate" ∨ includes (acceptHeader req) "text/html" = true))) ∧
    (handleFetch env s req =
      match (handleFetch env s req).strategy with
      | Strategy.api => apiStrategy env s req
      | Strategy.navigation => navigationStrategy env s req
      | Strategy.staticAsset => staticStrategy env s req) ∧
    (specTargetsProviderHost req → (handleFetch env s req).strategy = Strategy.api) ∧
    (includes req.url API_HOST = true → isNavigation req = true →
      handleFetch env s req = apiStrategy env s req ∧ req.url ≠ OFFLINE_URL) := by
  have hnavdef : isNavigation req = true ↔
      (req.mode = "navigate" ∨ includes (acceptHeader req) "text/html" = true) := by
    simp [isNavigation]
  by_cases hapi : isApiRequest req = true
  · have hs : (handleFetch env s req).strategy = Strategy.api := by
      rw [handleFetch_api env s req hapi, apiStrategy_strategy]
    have hi : includes req.url API_HOST = true := hapi
    refine ⟨by simp [hs, hi], by simp [hs, hi], by simp [hs, hi], ?_, fun _ => hs, ?_⟩
    · rw [hs]
      exact handleFetch_api env s req hapi
    · intro _ _
      refine ⟨handleFetch_api env s req hapi, ?_⟩
      intro h
      rw [h] at hi
      revert hi
      decide
  · have hapi2 : isApiRequest req = false := by simpa using hapi
    have hi : includes req.url API_HOST = false := hapi2
    by_cases hnav : isNavigation req = true
    · have hs : (handleFetch env s req).strategy = Strategy.navigation := by
        rw [handleFetch_navigation env s req hapi2 hnav]
        rfl
      have hn := hnavdef.mp hnav
      refine ⟨by simp [hs, hi], by simp [hs, hi, hn], by simp [hs, hi, hn], ?_, ?_, ?_⟩
      · rw [hs]
        exact handleFetch_navigation env s req hapi2 hnav
      · intro h
        exact absurd (isApiRequest_of_specTargets req h) hapi
      · intro h
        rw [hi] at h
        exact absurd h (by decide)
    · have hnav2 : isNavigation req = false := by simpa using hnav
      have hs : (handleFetch env s req).strategy = Strategy.staticAsset := by
        rw [handleFetch_static env s req hapi2 hnav2, staticStrategy_strategy]
      have hn : ¬ (req.mode = "navigate" ∨ includes (acceptHeader req) "text/html" = true) :=
        fun h => hnav (hnavdef.mpr h)
      refine ⟨by simp [hs, hi], by simp [hs, hi, hn], by simp [hs, hi, hn], ?_, ?_, ?_⟩
      · rw [hs]
        exact handleFetch_static env s req hapi2 hnav2
      · intro h
        exact absurd (isApiRequest_of_specTargets req h) hapi
      · intro h
        rw [hi] at h
        exact absurd h (by decide)

/-- Witness for C7: the weather request targets the provider host and
gets the data-API strategy. -/
theorem fetch_classification_witness :
    specTargetsProviderHost reqWeather ∧
    (handleFetch envOffline storageStale reqWeather).strategy = Strategy.api :=
  ⟨by decide,
    (fetch_classification envOffline storageStale reqWeather).2.2.2.2.1 (by decide)⟩

/-- C8, as stated, fails: with the network down and nothing cached, the data-API request and
the navigation both end with no response at all. -/
theorem router_total_unavailability_counterexample :
    isApiRequest reqWeather = true ∧
    envOffline.fetch reqWeather.url = none ∧
    CacheStorage.matchUrl [] reqWeather.url = none ∧
    (handleFetch envOffline [] reqWeather).response = none ∧
    isApiRequest reqPage = false ∧ isNavigation reqPage = true ∧
    (handleFetch envOffline [] reqPage).response = none := by
  decide

/-- C8 (amended): a static-asset request always gets a response; a data-API request gets one
exactly when the network fetch succeeds or an entry is cached under the request key; a
navigation gets one exactly when the network fetch succeeds or an entry is cached under the
offline root URL.  Under total unavailability the last two end with no response. -/
theorem router_response (env : Env) (s : CacheStorage) (req : Request) :
    (isApiRequest req = false → isNavigation req = false →
      ∃ r, (handleFetch env s req).response = some r) ∧
    (isApiRequest req = true →
      ((handleFetch env s req).response = none ↔
        (env.fetch req.url = none ∧ CacheStorage.matchUrl s req.url = none))) ∧
    (isApiRequest req = false → isNavigation req = true →
      ((handleFetch env s req).response = none ↔
        (env.fetch req.url = none ∧ CacheStorage.matchUrl s OFFLINE_URL = none))) := by
  refine ⟨?_, ?_, ?_⟩
  · intro hapi hnav
    rw [handleFetch_static env s req hapi hnav]
    unfold staticStrategy
    cases hc : CacheStorage.matchUrl s req.url with
    | some cached => exact ⟨cached, rfl⟩
    | none =>
      cases hf : env.fetch req.url with
      | some res => exact ⟨res, by simp only [hf]⟩
      | none => exact ⟨Response.notFound, by simp only [hf]⟩
  · intro hapi
    rw [handleFetch_api env s req hapi]
    unfold apiStrategy
    cases hf : env.fetch req.url with
    | some res => simp
    | none => simp
  · intro hapi hnav
    rw [handleFetch_navigation env s req hapi hnav]
    unfold navigationStrategy
    cases hf : env.fetch req.url with
    | some res => simp
    | none => simp

/-- Witness for C8: an icon request with the network down and nothing cached
still gets a response. -/
theorem router_response_witness :
    ∃ r, (handleFetch envOffline [] reqIcon).response = some r :=
  (router_response envOffline [] reqIcon).1 (by decide) (by decide)


end WeatherPwa
